import Mathlib

/-!
Verification of the hand-written PyTorch training and evaluation loops of the
torchbearer-tutorial notebooks (`Quickstart.ipynb`, `VAE.ipynb`).

The training loop of `Quickstart.ipynb` is

  for epoch in range(nEpoch):
      trainloader = iter(traingen)
      running_loss = 0.0
      for i, data in enumerate(trainloader):
          inputs, labels = data
          optimizer.zero_grad()
          outputs = model(inputs)
          loss = criterion(outputs, labels)
          loss.backward()
          optimizer.step()
          running_loss = 0.99 * running_loss + 0.01 * loss.item()

and the evaluation loop is

  correct = 0
  total = 0
  for data in testgen:
      images, labels = data
      outputs = model(images)
      _, predicted = torch.max(outputs.data, 1)
      total += labels.size(0)
      correct += (predicted == labels).sum()
  accuracy = 100 * correct / total

The external collaborators (model forward, loss criterion, autograd backward,
optimizer) are opaque synchronous calls into a third-party library; they are
embedded as abstract functions collected in an environment record.  Scalar
losses are embedded as rationals.  The per-batch statement order is recorded
in an explicit event trace.
-/

namespace TorchbearerTutorial

/-- One observable operation of the per-batch body, tagged with the batch it
acts on.  The constructors are named after the source lines:
`optimizer.zero_grad()`, `outputs = model(inputs)`,
`loss = criterion(outputs, labels)`, `loss.backward()`, `optimizer.step()`,
`running_loss = 0.99 * running_loss + 0.01 * loss.item()`. -/
inductive Event (I L : Type) where
  | zeroGrad : I × L → Event I L
  | forward : I × L → Event I L
  | loss : I × L → Event I L
  | backward : I × L → Event I L
  | step : I × L → Event I L
  | metric : I × L → Event I L
  deriving DecidableEq

/-- The external collaborators of the training loop: model forward pass,
loss criterion, autograd gradient computation and optimizer update.
`P` = model parameters, `S` = optimizer internal state, `G` = gradient store,
`I` = input batch tensor, `L` = label batch tensor, `O` = model output. -/
structure TrainEnv (P S G I L O : Type) where
  forward : P → I → O
  criterion : O → L → ℚ
  backward : P → I → L → G
  optStep : S → P → G → S × P
  zeroGrad : G

/-- The mutable state threaded through the training loop: the model
parameters, the optimizer state, the gradient store, the `running_loss`
accumulator, and the trace of operations performed so far. -/
structure TrainState (P S G I L : Type) where
  params : P
  opt : S
  grads : G
  running : ℚ
  trace : List (Event I L)

variable {P S G I L O : Type}

/-- The body of `for i, data in enumerate(trainloader)` from
`Quickstart.ipynb`, one statement per `let`, in source order. -/
def trainBatch (env : TrainEnv P S G I L O) (s : TrainState P S G I L)
    (b : I × L) : TrainState P S G I L :=
  -- optimizer.zero_grad()
  let s := { s with grads := env.zeroGrad, trace := s.trace ++ [Event.zeroGrad b] }
  -- outputs = model(inputs)
  let out := env.forward s.params b.1
  let s := { s with trace := s.trace ++ [Event.forward b] }
  -- loss = criterion(outputs, labels)
  let l := env.criterion out b.2
  let s := { s with trace := s.trace ++ [Event.loss b] }
  -- loss.backward()
  let s := { s with grads := env.backward s.params b.1 b.2,
                    trace := s.trace ++ [Event.backward b] }
  -- optimizer.step()
  let os := env.optStep s.opt s.params s.grads
  let s := { s with opt := os.1, params := os.2, trace := s.trace ++ [Event.step b] }
  -- running_loss = 0.99 * running_loss + 0.01 * loss.item()
  { s with running := 0.99 * s.running + 0.01 * l,
           trace := s.trace ++ [Event.metric b] }

/-- The inner `for` loop over the batches of one epoch. -/
def runBatches (env : TrainEnv P S G I L O) (s : TrainState P S G I L)
    (bs : List (I × L)) : TrainState P S G I L :=
  bs.foldl (trainBatch env) s

/-- One iteration of `for epoch in range(nEpoch)`: `running_loss = 0.0`
followed by the inner loop over all batches. -/
def trainEpoch (env : TrainEnv P S G I L O) (batches : List (I × L))
    (s : TrainState P S G I L) : TrainState P S G I L :=
  runBatches env { s with running := 0 } batches

/-- The outer `for epoch in range(nEpoch)` loop. -/
def train (env : TrainEnv P S G I L O) (batches : List (I × L)) :
    ℕ → TrainState P S G I L → TrainState P S G I L
  | 0, s => s
  | n + 1, s => train env batches n (trainEpoch env batches s)

/-- The scalar loss the criterion produces for batch `b` at state `s`
(the value of `loss.item()` in the source). -/
def batchLoss (env : TrainEnv P S G I L O) (s : TrainState P S G I L)
    (b : I × L) : ℚ :=
  env.criterion (env.forward s.params b.1) b.2

/-- The per-batch `(loss.item(), running_loss)` pairs printed by the source's
`print` statement while running the batches of one epoch from state `s`. -/
def epochLogAux (env : TrainEnv P S G I L O) :
    TrainState P S G I L → List (I × L) → List (ℚ × ℚ)
  | _, [] => []
  | s, b :: bs =>
    (batchLoss env s b, (trainBatch env s b).running) ::
      epochLogAux env (trainBatch env s b) bs

/-- The `(loss, running_loss)` pairs observed during one full epoch started
from state `s` (after the `running_loss = 0.0` reset). -/
def epochLog (env : TrainEnv P S G I L O) (batches : List (I × L))
    (s : TrainState P S G I L) : List (ℚ × ℚ) :=
  epochLogAux env { s with running := 0 } batches

/-- The per-epoch logs of a whole training run of `n` epochs. -/
def trainLogs (env : TrainEnv P S G I L O) (batches : List (I × L)) :
    ℕ → TrainState P S G I L → List (List (ℚ × ℚ))
  | 0, _ => []
  | n + 1, s =>
    epochLog env batches s :: trainLogs env batches n (trainEpoch env batches s)

/-- Modelled from the spec: the exponentially-weighted moving average
recurrence `running = 0.99*running + 0.01*current_batch_loss`, seeded at `r`,
applied to a list of batch losses; returns the value after each batch. -/
def specEWMA (r : ℚ) : List ℚ → List ℚ
  | [] => []
  | l :: ls => (0.99 * r + 0.01 * l) :: specEWMA (0.99 * r + 0.01 * l) ls

lemma trainBatch_running (env : TrainEnv P S G I L O) (s : TrainState P S G I L)
    (b : I × L) :
    (trainBatch env s b).running = 0.99 * s.running + 0.01 * batchLoss env s b := rfl

lemma trainBatch_params (env : TrainEnv P S G I L O) (s : TrainState P S G I L)
    (b : I × L) :
    (trainBatch env s b).params =
      (env.optStep s.opt s.params (env.backward s.params b.1 b.2)).2 := rfl

lemma epochLogAux_length (env : TrainEnv P S G I L O) (bs : List (I × L)) :
    ∀ s : TrainState P S G I L, (epochLogAux env s bs).length = bs.length := by
  induction bs with
  | nil => intro s; rfl
  | cons b bs ih => intro s; simpa [epochLogAux] using ih (trainBatch env s b)

lemma epochLogAux_snd_ewma (env : TrainEnv P S G I L O) (bs : List (I × L)) :
    ∀ s : TrainState P S G I L,
      (epochLogAux env s bs).map Prod.snd =
        specEWMA s.running ((epochLogAux env s bs).map Prod.fst) := by
  induction bs with
  | nil => intro s; rfl
  | cons b bs ih =>
    intro s
    simp only [epochLogAux, List.map_cons, specEWMA, trainBatch_running]
    congr 1
    simpa [trainBatch_running] using ih (trainBatch env s b)

lemma epochLog_snd_ewma (env : TrainEnv P S G I L O) (batches : List (I × L))
    (s : TrainState P S G I L) :
    (epochLog env batches s).map Prod.snd =
      specEWMA 0 ((epochLog env batches s).map Prod.fst) := by
  simpa [epochLog] using epochLogAux_snd_ewma env batches { s with running := 0 }

lemma trainLogs_length (env : TrainEnv P S G I L O) (batches : List (I × L)) :
    ∀ (n : ℕ) (s : TrainState P S G I L), (trainLogs env batches n s).length = n := by
  intro n
  induction n with
  | zero => intro s; rfl
  | succ n ih => intro s; simpa [trainLogs] using ih (trainEpoch env batches s)

lemma trainLogs_mem (env : TrainEnv P S G I L O) (batches : List (I × L)) :
    ∀ (n : ℕ) (s : TrainState P S G I L),
      ∀ Lg ∈ trainLogs env batches n s,
        ∃ t : TrainState P S G I L, Lg = epochLog env batches t := by
  intro n
  induction n with
  | zero => intro s Lg h; cases h
  | succ n ih =>
    intro s Lg h
    rcases List.mem_cons.mp h with h | h
    · exact ⟨s, h⟩
    · exact ih (trainEpoch env batches s) Lg h

/-- C4: running the training loop for 0 epochs is the identity on the whole
training state: no batch is processed (the trace is unchanged) and every
model parameter is unchanged. -/
theorem train_zero_epochs_identity (env : TrainEnv P S G I L O)
    (batches : List (I × L)) (s : TrainState P S G I L) :
    train env batches 0 s = s := rfl

/-- C1: in every epoch of a training run, the epoch's log has one entry per
batch, and the sequence of `running_loss` values it records is exactly the
EWMA recurrence `running = 0.99*running + 0.01*loss` applied to the recorded
batch losses seeded at 0: the accumulator starts the epoch at 0 and is never
reset mid-epoch. -/
theorem running_loss_is_epochwise_ewma (env : TrainEnv P S G I L O)
    (batches : List (I × L)) (n : ℕ) (s : TrainState P S G I L) :
    (trainLogs env batches n s).length = n ∧
      ∀ Lg ∈ trainLogs env batches n s,
        Lg.length = batches.length ∧
          Lg.map Prod.snd = specEWMA 0 (Lg.map Prod.fst) := by
  refine ⟨trainLogs_length env batches n s, ?_⟩
  intro Lg hLg
  obtain ⟨t, rfl⟩ := trainLogs_mem env batches n s Lg hLg
  exact ⟨epochLogAux_length env batches _, epochLog_snd_ewma env batches t⟩

/-- C6: the log of an epoch is completely independent of the `running_loss`
value the state carries when the epoch begins (the history of the previous
epoch), and after the first batch of the epoch `running_loss` equals
`0.01` times that batch's loss. -/
theorem first_batch_running_loss_independent (env : TrainEnv P S G I L O)
    (b : I × L) (bs : List (I × L)) (s : TrainState P S G I L) (r r' : ℚ) :
    epochLog env (b :: bs) { s with running := r } =
        epochLog env (b :: bs) { s with running := r' } ∧
      (epochLog env (b :: bs) { s with running := r }).head? =
        some (batchLoss env { s with running := 0 } b,
          0.01 * batchLoss env { s with running := 0 } b) := by
  constructor
  · rfl
  · simp [epochLog, epochLogAux, trainBatch_running]

/-- The fixed sequence of operations the per-batch body performs on batch
`b`, in the order the source lines execute them. -/
def batchEvents (b : I × L) : List (Event I L) :=
  [Event.zeroGrad b, Event.forward b, Event.loss b,
   Event.backward b, Event.step b, Event.metric b]

/-- The events of one epoch: the fixed per-batch block, batch after batch in
iteration order. -/
def epochEvents (bs : List (I × L)) : List (Event I L) :=
  bs.flatMap batchEvents

lemma trainBatch_trace (env : TrainEnv P S G I L O) (s : TrainState P S G I L)
    (b : I × L) :
    (trainBatch env s b).trace = s.trace ++ batchEvents b := by
  simp [trainBatch, batchEvents]

lemma runBatches_trace (env : TrainEnv P S G I L O) (bs : List (I × L)) :
    ∀ s : TrainState P S G I L,
      (runBatches env s bs).trace = s.trace ++ epochEvents bs := by
  induction bs with
  | nil => intro s; simp [runBatches, epochEvents]
  | cons b bs ih =>
    intro s
    simp [runBatches] at ih ⊢
    rw [ih (trainBatch env s b), trainBatch_trace]
    simp [epochEvents, batchEvents]

lemma trainEpoch_trace (env : TrainEnv P S G I L O) (batches : List (I × L))
    (s : TrainState P S G I L) :
    (trainEpoch env batches s).trace = s.trace ++ epochEvents batches :=
  runBatches_trace env batches _

/-- C8: the trace of a full training run of `n` epochs is exactly `n` copies
of the epoch block, and the epoch block is the batches in iteration order,
each contributing the fixed sequence zero-grad, forward, loss, backward,
optimizer step, metric update; in particular the optimizer step for a batch
occurs strictly after the backward pass for that batch. -/
theorem per_batch_operation_order (env : TrainEnv P S G I L O)
    (batches : List (I × L)) (n : ℕ) (s : TrainState P S G I L) :
    (train env batches n s).trace =
      s.trace ++ (List.replicate n (epochEvents batches)).flatten := by
  induction n generalizing s with
  | zero => simp [train]
  | succ n ih =>
    simp only [train, List.replicate_succ, List.flatten]
    rw [ih (trainEpoch env batches s), trainEpoch_trace]
    simp

/-- The training-loop collaborators with a fallible loss criterion: the loss
computation raises (returns `Except.error`) on a shape mismatch between
prediction and target, as `F.binary_cross_entropy` and `view` do in
`bce_loss` of `VAE.ipynb`. `E` is the exception type. -/
structure TrainEnvE (P S G I L O E : Type) where
  forward : P → I → O
  criterion : O → L → Except E ℚ
  backward : P → I → L → G
  optStep : S → P → G → S × P
  zeroGrad : G

variable {E : Type}

/-- The per-batch body with the fallible criterion: an exception raised by
the loss computation propagates out of the body (Python exception
semantics), skipping the backward pass, the optimizer step and the metric
update for that batch. -/
def trainBatchE (env : TrainEnvE P S G I L O E) (s : TrainState P S G I L)
    (b : I × L) : Except E (TrainState P S G I L) :=
  -- optimizer.zero_grad()
  let s := { s with grads := env.zeroGrad, trace := s.trace ++ [Event.zeroGrad b] }
  -- outputs = model(inputs)
  let out := env.forward s.params b.1
  let s := { s with trace := s.trace ++ [Event.forward b] }
  -- loss = criterion(outputs, labels): may raise on a shape mismatch
  match env.criterion out b.2 with
  | Except.error e => Except.error e
  | Except.ok l =>
    let s := { s with trace := s.trace ++ [Event.loss b] }
    -- loss.backward()
    let s := { s with grads := env.backward s.params b.1 b.2,
                      trace := s.trace ++ [Event.backward b] }
    -- optimizer.step()
    let os := env.optStep s.opt s.params s.grads
    let s := { s with opt := os.1, params := os.2, trace := s.trace ++ [Event.step b] }
    -- running_loss = 0.99 * running_loss + 0.01 * loss.item()
    Except.ok { s with running := 0.99 * s.running + 0.01 * l,
                       trace := s.trace ++ [Event.metric b] }

/-- The inner batch loop with exception propagation: an exception raised in
the body aborts the loop at once, processing no later batch. -/
def runBatchesE (env : TrainEnvE P S G I L O E) :
    TrainState P S G I L → List (I × L) → Except E (TrainState P S G I L)
  | s, [] => Except.ok s
  | s, b :: bs =>
    match trainBatchE env s b with
    | Except.error e => Except.error e
    | Except.ok t => runBatchesE env t bs

/-- One epoch with exception propagation. -/
def trainEpochE (env : TrainEnvE P S G I L O E) (batches : List (I × L))
    (s : TrainState P S G I L) : Except E (TrainState P S G I L) :=
  runBatchesE env { s with running := 0 } batches

/-- The outer epoch loop with exception propagation: an exception raised in
an epoch aborts the run, processing no later epoch. -/
def trainE (env : TrainEnvE P S G I L O E) (batches : List (I × L)) :
    ℕ → TrainState P S G I L → Except E (TrainState P S G I L)
  | 0, s => Except.ok s
  | n + 1, s =>
    match trainEpochE env batches s with
    | Except.error e => Except.error e
    | Except.ok t => trainE env batches n t

lemma runBatchesE_append (env : TrainEnvE P S G I L O E) (xs : List (I × L)) :
    ∀ (s : TrainState P S G I L) (ys : List (I × L)),
      runBatchesE env s (xs ++ ys) =
        match runBatchesE env s xs with
        | Except.error e => Except.error e
        | Except.ok t => runBatchesE env t ys := by
  induction xs with
  | nil => intro s ys; rfl
  | cons b bs ih =>
    intro s ys
    simp only [List.cons_append, runBatchesE]
    cases trainBatchE env s b with
    | error e => rfl
    | ok t => exact ih t ys

lemma trainBatchE_criterion_error (env : TrainEnvE P S G I L O E)
    (s : TrainState P S G I L) (b : I × L) (err : E)
    (h : env.criterion (env.forward s.params b.1) b.2 = Except.error err) :
    trainBatchE env s b = Except.error err := by
  simp only [trainBatchE]
  rw [h]

/-- C3: if, with every earlier batch of the first epoch having succeeded and
having produced state `s₁`, the loss computation raises exception `err` on
batch `b`, then the whole training run — whatever batches follow `b` and
however many epochs remain — returns exactly `Except.error err`: the failure
is immediate, is not retried, no further batch or epoch is processed, and
the exception propagates to the caller. -/
theorem loss_shape_mismatch_aborts_run (env : TrainEnvE P S G I L O E)
    (s s₁ : TrainState P S G I L) (pre : List (I × L)) (b : I × L) (err : E)
    (hpre : runBatchesE env { s with running := 0 } pre = Except.ok s₁)
    (herr : env.criterion (env.forward s₁.params b.1) b.2 = Except.error err) :
    ∀ (post : List (I × L)) (n : ℕ),
      trainE env (pre ++ b :: post) (n + 1) s = Except.error err := by
  intro post n
  have hepoch : trainEpochE env (pre ++ b :: post) s = Except.error err := by
    unfold trainEpochE
    rw [runBatchesE_append env pre _ (b :: post), hpre]
    simp only [runBatchesE]
    rw [trainBatchE_criterion_error env s₁ b err herr]
  simp only [trainE]
  rw [hepoch]

/-- `torch.max(outputs, 1)`'s index component for one row of scores: the
index of the (first) maximal entry.  `go` scans the tail keeping the best
index and value so far. -/
def argmax (scores : List ℚ) : ℕ :=
  go 0 (scores.headD 0) 1 scores.tail
where
  go (best : ℕ) (bv : ℚ) (i : ℕ) : List ℚ → ℕ
    | [] => best
    | y :: ys => if bv < y then go i y (i + 1) ys else go best bv (i + 1) ys

/-- The state of the evaluation loop of `Quickstart.ipynb`: the (read-only)
model parameters and the two counters `correct` and `total`. -/
structure EvalState (P I : Type) where
  params : P
  correct : ℕ
  total : ℕ

/-- `correct = 0; total = 0`: the counters are reset when evaluation starts. -/
def evalInit (P I : Type) (p : P) : EvalState P I := ⟨p, 0, 0⟩

/-- The body of `for data in testgen`: run the model forward on the batch's
images, take the per-row arg-max as the predicted labels, add the batch size
to `total` and the number of label matches to `correct`.  A batch is a list
of (image, label) rows; `fwd` is the model forward pass producing the row of
class scores. -/
def evalBatch (fwd : P → I → List ℚ) (s : EvalState P I)
    (batch : List (I × ℕ)) : EvalState P I :=
  -- outputs = model(images)
  let outputs := batch.map (fun xy => fwd s.params xy.1)
  -- _, predicted = torch.max(outputs.data, 1)
  let predicted := outputs.map argmax
  -- total += labels.size(0); correct += (predicted == labels).sum()
  { s with total := s.total + batch.length,
           correct := s.correct +
             ((predicted.zip (batch.map Prod.snd)).countP fun pq => pq.1 == pq.2) }

/-- The evaluation loop: one pass over the list of test batches. -/
def evalRun (fwd : P → I → List ℚ) (s : EvalState P I)
    (batches : List (List (I × ℕ))) : EvalState P I :=
  batches.foldl (evalBatch fwd) s

/-- Whether the model at parameters `p` classifies sample `xy` correctly:
the arg-max of its scores equals the true label. -/
def sampleCorrect (fwd : P → I → List ℚ) (p : P) (xy : I × ℕ) : Bool :=
  argmax (fwd p xy.1) == xy.2

/-- `100 * correct / total`, as the source computes it after the loop; in
Python this raises `ZeroDivisionError` when `total = 0`, embedded as
`none`. -/
def accuracyPercent (s : EvalState P I) : Option ℚ :=
  if s.total = 0 then none else some ((100 * s.correct : ℚ) / s.total)

lemma evalInit_params (p : P) : (evalInit P I p).params = p := rfl

lemma evalInit_correct (p : P) : (evalInit P I p).correct = 0 := rfl

lemma evalInit_total (p : P) : (evalInit P I p).total = 0 := rfl

lemma evalBatch_eq (fwd : P → I → List ℚ) (s : EvalState P I)
    (batch : List (I × ℕ)) :
    evalBatch fwd s batch =
      { s with total := s.total + batch.length,
               correct := s.correct + batch.countP (sampleCorrect fwd s.params) } := by
  simp only [evalBatch, List.map_map, List.zip_map', List.countP_map]
  rfl

lemma evalRun_params (fwd : P → I → List ℚ) (batches : List (List (I × ℕ))) :
    ∀ s : EvalState P I, (evalRun fwd s batches).params = s.params := by
  induction batches with
  | nil => intro s; rfl
  | cons b bs ih =>
    intro s
    simpa [evalRun, evalBatch] using ih (evalBatch fwd s b)

lemma evalRun_total (fwd : P → I → List ℚ) (batches : List (List (I × ℕ))) :
    ∀ s : EvalState P I,
      (evalRun fwd s batches).total = s.total + batches.flatten.length := by
  induction batches with
  | nil => intro s; simp [evalRun]
  | cons b bs ih =>
    intro s
    have := ih (evalBatch fwd s b)
    simp only [evalRun] at this ⊢
    rw [List.foldl_cons, this, evalBatch_eq]
    simp [add_assoc]

lemma evalRun_correct (fwd : P → I → List ℚ) (batches : List (List (I × ℕ))) :
    ∀ s : EvalState P I,
      (evalRun fwd s batches).correct =
        s.correct + batches.flatten.countP (sampleCorrect fwd s.params) := by
  induction batches with
  | nil => intro s; simp [evalRun]
  | cons b bs ih =>
    intro s
    have := ih (evalBatch fwd s b)
    simp only [evalRun] at this ⊢
    rw [List.foldl_cons, this, evalBatch_eq]
    simp [add_assoc, List.countP_append]

/-- C2: on a non-empty test sequence, the evaluation loop makes exactly one
pass: `total` ends as the number of samples in the whole sequence, `correct`
ends as the number of samples whose predicted arg-max label equals the true
label (each sample counted exactly once), and the accuracy fraction
`correct / total` equals that count divided by the number of samples. -/
theorem eval_accuracy_is_argmax_match_fraction (fwd : P → I → List ℚ) (p : P)
    (batches : List (List (I × ℕ))) (hne : batches.flatten ≠ []) :
    (evalRun fwd (evalInit P I p) batches).total = batches.flatten.length ∧
      (evalRun fwd (evalInit P I p) batches).correct =
        batches.flatten.countP (sampleCorrect fwd p) ∧
      ((evalRun fwd (evalInit P I p) batches).correct : ℚ) /
          ((evalRun fwd (evalInit P I p) batches).total : ℚ) =
        (batches.flatten.countP (sampleCorrect fwd p) : ℚ) /
          (batches.flatten.length : ℚ) := by
  have ht := evalRun_total fwd batches (evalInit P I p)
  have hc := evalRun_correct fwd batches (evalInit P I p)
  rw [evalInit_total, Nat.zero_add] at ht
  rw [evalInit_correct, Nat.zero_add, evalInit_params] at hc
  exact ⟨ht, hc, by rw [ht, hc]⟩

/-- C5: after each processed batch of an evaluation run the invariant
`correct ≤ total` holds, and on a non-empty test sequence the final accuracy
fraction `correct / total` lies in `[0, 1]`. -/
theorem eval_counters_invariant (fwd : P → I → List ℚ) (p : P)
    (batches : List (List (I × ℕ))) :
    (∀ k : ℕ,
        (evalRun fwd (evalInit P I p) (batches.take k)).correct ≤
          (evalRun fwd (evalInit P I p) (batches.take k)).total) ∧
      (batches.flatten ≠ [] →
        0 ≤ ((evalRun fwd (evalInit P I p) batches).correct : ℚ) /
            ((evalRun fwd (evalInit P I p) batches).total : ℚ) ∧
          ((evalRun fwd (evalInit P I p) batches).correct : ℚ) /
              ((evalRun fwd (evalInit P I p) batches).total : ℚ) ≤ 1) := by
  constructor
  · intro k
    rw [evalRun_total fwd _ (evalInit P I p), evalRun_correct fwd _ (evalInit P I p),
      evalInit_total, evalInit_correct, evalInit_params, Nat.zero_add, Nat.zero_add]
    exact List.countP_le_length _
  · intro hne
    rw [evalRun_total fwd _ (evalInit P I p), evalRun_correct fwd _ (evalInit P I p),
      evalInit_total, evalInit_correct, evalInit_params, Nat.zero_add, Nat.zero_add]
    have hlen : 0 < (batches.flatten.length : ℚ) := by
      exact_mod_cast List.length_pos.mpr hne
    constructor
    · positivity
    · rw [div_le_one hlen]
      exact_mod_cast List.countP_le_length _

/-- C7: the evaluation loop runs inference only: after any number of
processed batches (hence over the whole run) the model parameters are
exactly the parameters it started with — no batch takes a gradient step and
no parameter is mutated. -/
theorem eval_preserves_params (fwd : P → I → List ℚ) (s : EvalState P I)
    (batches : List (List (I × ℕ))) :
    ∀ k : ℕ, (evalRun fwd s (batches.take k)).params = s.params := by
  intro k
  exact evalRun_params fwd (batches.take k) s

/-- C10: on an empty test sequence the counters `correct` and `total` both
stay 0 and the final expression `100 * correct / total` divides by zero
(raises, embedded as `none`); whenever the test sequence holds at least one
sample the expression is defined. -/
theorem eval_empty_divides_by_zero (fwd : P → I → List ℚ) (p : P) :
    (evalRun fwd (evalInit P I p) []).correct = 0 ∧
      (evalRun fwd (evalInit P I p) []).total = 0 ∧
      accuracyPercent (evalRun fwd (evalInit P I p) []) = none ∧
      ∀ batches : List (List (I × ℕ)), batches.flatten ≠ [] →
        (accuracyPercent (evalRun fwd (evalInit P I p) batches)).isSome := by
  refine ⟨rfl, rfl, rfl, ?_⟩
  intro batches hne
  have ht := evalRun_total fwd batches (evalInit P I p)
  rw [evalInit_total, Nat.zero_add] at ht
  have : (evalRun fwd (evalInit P I p) batches).total ≠ 0 := by
    rw [ht]
    exact fun h => hne (List.length_eq_zero.mp h)
  simp [accuracyPercent, this]

/-- One fully-connected layer (`nn.Linear`): a weight matrix as a list of
rows and a bias vector. -/
structure LinearLayer where
  weight : List (List ℚ)
  bias : List ℚ

/-- Dot product of two vectors (truncating at the shorter). -/
def dot (u v : List ℚ) : ℚ :=
  ((u.zip v).map fun p => p.1 * p.2).sum

/-- Apply a linear layer: each output entry is a weight row dotted with the
input plus the matching bias entry. -/
def linear (layer : LinearLayer) (x : List ℚ) : List ℚ :=
  (layer.weight.zip layer.bias).map fun rb => dot rb.1 x + rb.2

/-- `F.relu` applied elementwise. -/
def relu (x : List ℚ) : List ℚ :=
  x.map fun q => max q 0

/-- The parameters of the `VAE` module of `VAE.ipynb`: the five linear
layers `fc1`, `fc21`, `fc22`, `fc3`, `fc4`. -/
structure VAEParams where
  fc1 : LinearLayer
  fc21 : LinearLayer
  fc22 : LinearLayer
  fc3 : LinearLayer
  fc4 : LinearLayer

/-- `VAE.encode`: `h1 = relu(fc1(x)); return fc21(h1), fc22(h1)`. -/
def encode (p : VAEParams) (x : List ℚ) : List ℚ × List ℚ :=
  let h1 := relu (linear p.fc1 x)
  (linear p.fc21 h1, linear p.fc22 h1)

/-- `VAE.reparameterize`: in training mode it returns
`eps.mul(std).add_(mu)` with `std = torch.exp(0.5*logvar)` and `eps` the
sampled noise (passed in explicitly, with `exp` the elementwise scalar
exponential of the tensor library); otherwise it returns `mu`. -/
def reparameterize (training : Bool) (exp : ℚ → ℚ) (eps mu logvar : List ℚ) :
    List ℚ :=
  if training then
    let std := logvar.map fun v => exp (0.5 * v)
    let scaled := (eps.zip std).map fun p => p.1 * p.2
    (scaled.zip mu).map fun p => p.1 + p.2
  else
    mu

/-- `VAE.decode`: `h3 = relu(fc3(z)); return sigmoid(fc4(h3))`, with
`sigmoid` the tensor library's elementwise scalar sigmoid. -/
def decode (sigmoid : ℚ → ℚ) (p : VAEParams) (z : List ℚ) : List ℚ :=
  (linear p.fc4 (relu (linear p.fc3 z))).map sigmoid

/-- `VAE.forward`: encode, reparameterize, decode. -/
def vaeForward (training : Bool) (exp sigmoid : ℚ → ℚ) (p : VAEParams)
    (eps x : List ℚ) : List ℚ :=
  let ml := encode p x
  let z := reparameterize training exp eps ml.1 ml.2
  decode sigmoid p z

/-- C9: when the VAE is not in training mode, `reparameterize` returns `mu`
exactly, and the VAE forward pass does not depend on the sampled noise: it
is a deterministic function of the input and the parameters. -/
theorem reparameterize_eval_mode_deterministic (exp sigmoid : ℚ → ℚ)
    (p : VAEParams) (eps eps₂ mu logvar x : List ℚ) :
    reparameterize false exp eps mu logvar = mu ∧
      vaeForward false exp sigmoid p eps x = vaeForward false exp sigmoid p eps₂ x := by
  exact ⟨rfl, rfl⟩

/-! Concrete instantiations used to exercise the theorems. -/

/-- A small concrete training environment over rational scalars. -/
def env0 : TrainEnv ℚ ℚ ℚ ℚ ℚ ℚ where
  forward := fun p x => p * x
  criterion := fun o y => o - y
  backward := fun p x y => p + x - y
  optStep := fun s p g => (s + 1, p - g)
  zeroGrad := 0

/-- A concrete starting state with a stale `running_loss` of 5. -/
def st0 : TrainState ℚ ℚ ℚ ℚ ℚ :=
  { params := 1, opt := 0, grads := 0, running := 5, trace := [] }

/-- Two concrete training batches. -/
def bs0 : List (ℚ × ℚ) := [(1, 2), (3, 4)]

theorem running_loss_is_epochwise_ewma_witness :
    (trainLogs env0 bs0 2 st0).length = 2 ∧
      ((epochLog env0 bs0 st0).length = bs0.length ∧
        (epochLog env0 bs0 st0).map Prod.snd =
          specEWMA 0 ((epochLog env0 bs0 st0).map Prod.fst)) :=
  ⟨(running_loss_is_epochwise_ewma env0 bs0 2 st0).1,
   (running_loss_is_epochwise_ewma env0 bs0 2 st0).2 (epochLog env0 bs0 st0)
     (List.mem_cons_self _ _)⟩

/-- The exception a tensor shape mismatch raises. -/
inductive ShapeError where
  | mismatch : ShapeError
  deriving DecidableEq

/-- A concrete environment whose criterion compares the shapes of prediction
and target and raises `ShapeError.mismatch` when they differ, as
`F.binary_cross_entropy(y_pred, y_true.view(-1, 784), reduction='sum')`
does. -/
def envE0 : TrainEnvE ℚ ℚ ℚ ℚ (List ℚ) (List ℚ) ShapeError where
  forward := fun p x => [p * x]
  criterion := fun o y =>
    if o.length = y.length then
      Except.ok (((o.zip y).map fun p => p.1 - p.2).sum)
    else
      Except.error ShapeError.mismatch
  backward := fun p x _ => p + x
  optStep := fun s p g => (s + 1, p - g)
  zeroGrad := 0

/-- A concrete starting state for the fallible environment. -/
def stE0 : TrainState ℚ ℚ ℚ ℚ (List ℚ) :=
  { params := 1, opt := 0, grads := 0, running := 5, trace := [] }

theorem loss_shape_mismatch_aborts_run_witness :
    runBatchesE envE0 { stE0 with running := 0 } [] =
        Except.ok { stE0 with running := 0 } ∧
      envE0.criterion (envE0.forward ({ stE0 with running := 0 }).params 2) [1, 2] =
        Except.error ShapeError.mismatch ∧
      trainE envE0 ([] ++ (2, [1, 2]) :: [(3, [1])]) (0 + 1) stE0 =
        Except.error ShapeError.mismatch :=
  ⟨rfl, rfl,
   loss_shape_mismatch_aborts_run envE0 stE0 { stE0 with running := 0 } []
     (2, [1, 2]) ShapeError.mismatch rfl rfl [(3, [1])] 0⟩

/-- A concrete two-class model for the evaluation loop. -/
def fwdE : ℚ → ℚ → List ℚ := fun p x => [p * x, x]

/-- Concrete test batches: three samples in two batches. -/
def batchesE : List (List (ℚ × ℕ)) := [[(1, 0)], [(2, 1), (0, 0)]]

theorem eval_accuracy_is_argmax_match_fraction_witness :
    batchesE.flatten ≠ [] ∧
      ((evalRun fwdE (evalInit ℚ ℚ 1) batchesE).total = batchesE.flatten.length ∧
        (evalRun fwdE (evalInit ℚ ℚ 1) batchesE).correct =
          batchesE.flatten.countP (sampleCorrect fwdE 1) ∧
        ((evalRun fwdE (evalInit ℚ ℚ 1) batchesE).correct : ℚ) /
            ((evalRun fwdE (evalInit ℚ ℚ 1) batchesE).total : ℚ) =
          (batchesE.flatten.countP (sampleCorrect fwdE 1) : ℚ) /
            (batchesE.flatten.length : ℚ)) :=
  ⟨by decide, eval_accuracy_is_argmax_match_fraction fwdE 1 batchesE (by decide)⟩

theorem eval_counters_invariant_witness :
    batchesE.flatten ≠ [] ∧
      (evalRun fwdE (evalInit ℚ ℚ 1) (batchesE.take 1)).correct ≤
        (evalRun fwdE (evalInit ℚ ℚ 1) (batchesE.take 1)).total ∧
      (0 ≤ ((evalRun fwdE (evalInit ℚ ℚ 1) batchesE).correct : ℚ) /
          ((evalRun fwdE (evalInit ℚ ℚ 1) batchesE).total : ℚ) ∧
        ((evalRun fwdE (evalInit ℚ ℚ 1) batchesE).correct : ℚ) /
            ((evalRun fwdE (evalInit ℚ ℚ 1) batchesE).total : ℚ) ≤ 1) :=
  ⟨by decide, (eval_counters_invariant fwdE 1 batchesE).1 1,
   (eval_counters_invariant fwdE 1 batchesE).2 (by decide)⟩

theorem eval_empty_divides_by_zero_witness :
    batchesE.flatten ≠ [] ∧
      (accuracyPercent (evalRun fwdE (evalInit ℚ ℚ 1) batchesE)).isSome :=
  ⟨by decide, (eval_empty_divides_by_zero fwdE 1).2.2.2 batchesE (by decide)⟩

end TorchbearerTutorial
